import Mathlib

/-!
Verification of the lumixd swap-execution pipeline against its design
specification.

The definitions below are a shallow embedding of the JavaScript sources,
chiefly the authoritative variant in src/execute_buy_v70.js (the function
executeSwap and the quote-normalization object literal named
stringifiedQuote), plus the quote retry loop of the unnamed variant
src/unnamed/part_001 (functions getQuote and the retry loop inside its
executeSwap).  Network endpoints are modelled as an environment supplying
the response of each outbound request; the pipeline result is paired with
the trace of requests actually issued.  JavaScript values that the code
inspects (truthiness checks, toString coercions) are modelled by the
JsVal type; a method call on null or undefined, which throws a TypeError
in JavaScript, is modelled by Option.none.  Console logging and wallet
key decoding, which have no effect on the network-visible control flow,
are not modelled.
-/

/-- A JavaScript value as far as the pipeline inspects one: null or
undefined, a boolean, a string, an integer, or a finite decimal number
`m / 10 ^ e` (the numeric payloads actually delivered by the aggregator). -/
inductive JsVal where
  | vNull : JsVal
  | vBool (b : Bool) : JsVal
  | vStr (s : String) : JsVal
  | vInt (n : Int) : JsVal
  | vDec (m : Int) (e : Nat) : JsVal
  deriving Repr, DecidableEq

/-- JavaScript truthiness of a value: null, undefined, false, the empty
string and the number 0 are falsy, everything else is truthy. -/
def JsVal.truthy : JsVal → Bool
  | .vNull => false
  | .vBool b => b
  | .vStr s => !s.isEmpty
  | .vInt n => n != 0
  | .vDec m _ => m != 0

/-- Drop trailing zero characters, used when rendering a finite decimal
the way JavaScript renders a Number. -/
def dropTrailingZeros (s : String) : String :=
  String.mk ((s.toList.reverse.dropWhile (fun c => c == '0')).reverse)

/-- The fractional digits of `n mod 10 ^ e`, left-padded with zeros to
exactly `e` digits. -/
def fracDigits (n : Nat) (e : Nat) : String :=
  let digs := Nat.toDigits 10 (n % 10 ^ e)
  String.mk (List.replicate (e - digs.length) '0' ++ digs)

/-- Decimal rendering of the finite decimal `m / 10 ^ e`, matching how
JavaScript prints such a Number: no trailing fractional zeros, no
fractional point when the fraction is zero. -/
def renderDec (m : Int) (e : Nat) : String :=
  if e = 0 then toString m
  else
    let n := m.natAbs
    let ip := n / 10 ^ e
    let fr := dropTrailingZeros (fracDigits n e)
    let sign := if m < 0 then "-" else ""
    if fr.isEmpty then sign ++ toString ip else sign ++ toString ip ++ "." ++ fr

/-- The JavaScript expression `v.toString()`: fails (throws a TypeError)
on null and undefined, is the identity on a string, and renders numbers
in decimal. -/
def jsToString : JsVal → Option String
  | .vNull => none
  | .vBool b => some (if b then "true" else "false")
  | .vStr s => some s
  | .vInt n => some (toString n)
  | .vDec m e => some (renderDec m e)

/-- The swapInfo object inside one route-plan step of an aggregator
quote.  The three amount fields are the ones the normalizer touches;
every other property carried by the object spread is kept in `rest`. -/
structure SwapInfo where
  inAmount : JsVal
  outAmount : JsVal
  feeAmount : JsVal
  rest : List (String × JsVal)
  deriving Repr, DecidableEq

/-- One step of the routePlan array of an aggregator quote. -/
structure RoutePlanStep where
  swapInfo : SwapInfo
  percent : JsVal
  rest : List (String × JsVal)
  deriving Repr, DecidableEq

/-- A parsed aggregator quote, with the named fields the code of
execute_buy_v70.js reads or rewrites, and `rest` for every further
property carried along by the object spread. -/
structure Quote where
  inAmount : JsVal
  outAmount : JsVal
  otherAmountThreshold : JsVal
  swapMode : JsVal
  slippageBps : JsVal
  platformFee : JsVal
  priceImpactPct : JsVal
  routePlan : List RoutePlanStep
  contextSlot : JsVal
  timeTaken : JsVal
  swapUsdValue : JsVal
  rest : List (String × JsVal)
  deriving Repr, DecidableEq

/-- The per-step part of the stringifiedQuote object literal of
execute_buy_v70.js: spread the step, replace the three swapInfo amount
fields by their toString coercions, keep percent as it is. -/
def stringifyStep (p : RoutePlanStep) : Option RoutePlanStep := do
  let ia ← jsToString p.swapInfo.inAmount
  let oa ← jsToString p.swapInfo.outAmount
  let fa ← jsToString p.swapInfo.feeAmount
  some { p with swapInfo := { p.swapInfo with
           inAmount := .vStr ia, outAmount := .vStr oa, feeAmount := .vStr fa } }

/-- The routePlan.map of the stringifiedQuote object literal. -/
def stringifySteps : List RoutePlanStep → Option (List RoutePlanStep)
  | [] => some []
  | p :: ps => do
    let p2 ← stringifyStep p
    let ps2 ← stringifySteps ps
    some (p2 :: ps2)

/-- The stringifiedQuote object literal of execute_buy_v70.js, lines
42 to 64: spread the quote, then coerce inAmount, outAmount,
otherAmountThreshold, priceImpactPct, every routePlan swapInfo amount,
and swapUsdValue to strings via toString; swapMode, slippageBps,
platformFee, percent, contextSlot and timeTaken are copied unchanged.
A toString call on a null or undefined field throws, giving none. -/
def stringifiedQuote (q : Quote) : Option Quote := do
  let ia ← jsToString q.inAmount
  let oa ← jsToString q.outAmount
  let oat ← jsToString q.otherAmountThreshold
  let pip ← jsToString q.priceImpactPct
  let rp ← stringifySteps q.routePlan
  let suv ← jsToString q.swapUsdValue
  some { q with
    inAmount := .vStr ia, outAmount := .vStr oa, otherAmountThreshold := .vStr oat,
    priceImpactPct := .vStr pip, routePlan := rp, swapUsdValue := .vStr suv }

/-- The outcome of parsing an HTTP response body as JSON: the json call
can reject, parse to null or undefined, or parse to a value. -/
inductive JsonOf (α : Type) where
  | throws : JsonOf α
  | null : JsonOf α
  | val (a : α) : JsonOf α
  deriving Repr, DecidableEq

/-- The error taxonomy of the pipeline: quote, build and submit
failures, verification giving up, a transport-level throw reaching the
top, and a TypeError from a method call on null or undefined. -/
inductive SwapError where
  | quoteError : SwapError
  | buildError (body : Option String) : SwapError
  | submitError (body : Option String) : SwapError
  | verificationFailed : SwapError
  | transportError : SwapError
  | typeError : SwapError
  deriving Repr, DecidableEq

/-- The quote stage of execute_buy_v70.js, lines 27 to 32: fetch, parse
the body as JSON, and throw Invalid quote response unless the parsed
value and its outAmount field are both truthy.  The argument is none
when the fetch or the body read itself throws. -/
def fetchQuote : Option (JsonOf Quote) → Except SwapError Quote
  | none => .error .transportError
  | some .throws => .error .transportError
  | some .null => .error .quoteError
  | some (.val q) => if q.outAmount.truthy then .ok q else .error .quoteError

/-- The retry budget of the confirmation loop (const retries = 3 in
execute_buy_v70.js, const MAX_RETRIES = 3 in the unnamed variant). -/
def MAX_RETRIES : Nat := 3

/-- The fixed delay between attempts, in milliseconds (the
setTimeout(resolve, 1000) promise). -/
def POLL_INTERVAL_MS : Nat := 1000

/-- The execution-error metadata object of a getTransaction RPC result. -/
structure RpcMeta where
  err : JsVal
  deriving Repr, DecidableEq

/-- One getTransaction RPC result.  meta is none when the result object
carries a null meta field, so that reading meta.err throws. -/
structure RpcResult where
  meta : Option RpcMeta
  deriving Repr, DecidableEq

/-- The response of one confirmation poll: the fetch itself throws, the
response is non-2xx (the code then throws and the throw is caught), or a
parsed body whose result field is null or an RPC result. -/
inductive PollResp where
  | transportErr : PollResp
  | httpErr (text : String) : PollResp
  | body (result : Option RpcResult) : PollResp
  deriving Repr, DecidableEq

/-- What one iteration of the confirmation loop in execute_buy_v70.js,
lines 133 to 169, does with the poll response: return the signature
(confirmed), fall through the if with no throw, or throw and be caught
by the surrounding catch.  Reading meta.err when meta is null throws. -/
inductive PollStep where
  | confirmed : PollStep
  | fallthrough : PollStep
  | caught : PollStep
  deriving Repr, DecidableEq

/-- Evaluate one confirmation poll the way the loop body does. -/
def pollOnce : PollResp → PollStep
  | .transportErr => .caught
  | .httpErr _ => .caught
  | .body none => .fallthrough
  | .body (some r) =>
    match r.meta with
    | none => .caught
    | some m => if m.err.truthy then .fallthrough else .confirmed

/-- The terminal confirmation statuses named by the design: the code of
this repository only ever produces confirmed or timeout. -/
inductive ConfirmationStatus where
  | confirmed : ConfirmationStatus
  | onChainFailure : ConfirmationStatus
  | timeout : ConfirmationStatus
  deriving Repr, DecidableEq

/-- The observable outcome of the confirmation loop: its status, the
number of polls issued, and the total milliseconds spent sleeping. -/
structure VerifyResult where
  status : ConfirmationStatus
  polls : Nat
  sleepMs : Nat
  deriving Repr, DecidableEq

/-- The confirmation loop of execute_buy_v70.js from poll index i with
the given remaining-attempts budget: a confirmed poll returns at once;
any other poll decrements the budget, sleeps one interval, and
continues; an exhausted budget is the timeout outcome (the code throws
Transaction verification failed). -/
def verifyFrom (p : Nat → PollResp) (i : Nat) : Nat → VerifyResult
  | 0 => ⟨.timeout, 0, 0⟩
  | n + 1 =>
    match pollOnce (p i) with
    | .confirmed => ⟨.confirmed, 1, 0⟩
    | _ =>
      let r := verifyFrom p (i + 1) n
      ⟨r.status, r.polls + 1, r.sleepMs + POLL_INTERVAL_MS⟩

/-- The whole confirmation stage: poll from index 0 with the full
budget. -/
def verify (p : Nat → PollResp) : VerifyResult := verifyFrom p 0 MAX_RETRIES

/-- The parsed body of the build (swap-instructions) response. -/
structure BuildJson where
  swapTransaction : JsVal
  deriving Repr, DecidableEq

/-- The build response: HTTP status flag, the raw body text (read for
the error message on non-2xx), and the parsed JSON body. -/
structure BuildResp where
  ok : Bool
  text : String
  json : JsonOf BuildJson
  deriving Repr, DecidableEq

/-- The parsed body of the execute response. -/
structure ExecJson where
  txid : JsVal
  deriving Repr, DecidableEq

/-- The execute response, shaped like the build response. -/
structure ExecResp where
  ok : Bool
  text : String
  json : JsonOf ExecJson
  deriving Repr, DecidableEq

/-- The environment of one pipeline run: the response of each outbound
request.  An Option none at a stage means the fetch itself threw. -/
structure Env where
  quoteFetch : Option (JsonOf Quote)
  buildResp : Option BuildResp
  execResp : Option ExecResp
  poll : Nat → PollResp

/-- The endpoints a pipeline run can address; the pipeline records the
requests it issues in order. -/
inductive Req where
  | quote : Req
  | build : Req
  | execute : Req
  | confirm : Req
  deriving Repr, DecidableEq

/-- The final outcome of one pipeline run: the transaction id returned
on success, or the error that aborted the run. -/
inductive PipeResult where
  | ok (txid : JsVal) : PipeResult
  | err (e : SwapError) : PipeResult
  deriving Repr, DecidableEq

/-- The build stage of execute_buy_v70.js, lines 79 to 97: on non-2xx
the body text is read and thrown inside the error (BuildError carrying
the body); a null or swapTransaction-less parsed body throws Invalid
swap instructions response (BuildError with no body captured). -/
def buildStage : Option BuildResp → Except SwapError BuildJson
  | none => .error .transportError
  | some br =>
    if br.ok then
      match br.json with
      | .throws => .error .transportError
      | .null => .error (.buildError none)
      | .val bj =>
        if bj.swapTransaction.truthy then .ok bj
        else .error (.buildError none)
    else .error (.buildError (some br.text))

/-- The submit stage of execute_buy_v70.js, lines 101 to 123, shaped
exactly like the build stage but producing SubmitError. -/
def execStage : Option ExecResp → Except SwapError ExecJson
  | none => .error .transportError
  | some er =>
    if er.ok then
      match er.json with
      | .throws => .error .transportError
      | .null => .error (.submitError none)
      | .val ej =>
        if ej.txid.truthy then .ok ej
        else .error (.submitError none)
    else .error (.submitError (some er.text))

/-- The whole pipeline of execute_buy_v70.js: quote, normalization,
build, submit, then the confirmation loop, each stage aborting the run
on failure.  The second component is the trace of requests issued. -/
def executeSwap (env : Env) : PipeResult × List Req :=
  match fetchQuote env.quoteFetch with
  | .error e => (.err e, [.quote])
  | .ok q =>
    match stringifiedQuote q with
    | none => (.err .typeError, [.quote])
    | some _ =>
      match buildStage env.buildResp with
      | .error e => (.err e, [.quote, .build])
      | .ok _ =>
        match execStage env.execResp with
        | .error e => (.err e, [.quote, .build, .execute])
        | .ok ej =>
          let v := verify env.poll
          match v.status with
          | .confirmed => (.ok ej.txid, [.quote, .build, .execute] ++ List.replicate v.polls .confirm)
          | _ => (.err .verificationFailed, [.quote, .build, .execute] ++ List.replicate v.polls .confirm)

/-- All three fallible stages before verification accept their
response: the quote parses and is kept, normalization succeeds, and the
build and execute stages both return ok. -/
def stagesOk (env : Env) : Bool :=
  (match fetchQuote env.quoteFetch with
   | .ok q => (stringifiedQuote q).isSome
   | .error _ => false) &&
  (match buildStage env.buildResp with
   | .ok _ => true
   | .error _ => false) &&
  (match execStage env.execResp with
   | .ok _ => true
   | .error _ => false)

/-- The parsed body of one quote response in src/unnamed/part_001: the
code only inspects the error field; everything else rides in rest. -/
structure P1QuoteData where
  error : JsVal
  rest : List (String × JsVal)
  deriving Repr, DecidableEq

/-- One quote-endpoint response in src/unnamed/part_001: the fetch or
body parse throws, or a parsed body. -/
inductive P1Resp where
  | transportErr : P1Resp
  | body (data : P1QuoteData) : P1Resp
  deriving Repr, DecidableEq

/-- getQuote of src/unnamed/part_001, lines 40 to 46: throws on a
transport failure, throws the error field when it is truthy, and
returns the data otherwise. -/
def getQuote : P1Resp → Except Unit P1QuoteData
  | .transportErr => .error ()
  | .body d => if d.error.truthy then .error () else .ok d

/-- The observable outcome of the quote retry loop of
src/unnamed/part_001: the quote obtained (none when the loop rethrew
after exhausting the budget), the number of getQuote calls, and the
total milliseconds slept between attempts. -/
structure QuoteStageResult where
  outcome : Option P1QuoteData
  calls : Nat
  sleepMs : Nat
  deriving Repr, DecidableEq

/-- The quote retry loop of src/unnamed/part_001, lines 59 to 72, from
attempt index i with the given remaining budget: a successful getQuote
breaks out at once; a failed one decrements the budget, rethrows when
the budget hits zero, and otherwise sleeps one second and retries. -/
def quoteRetryFrom (env : Nat → P1Resp) (i : Nat) : Nat → QuoteStageResult
  | 0 => ⟨none, 0, 0⟩
  | n + 1 =>
    match getQuote (env i) with
    | .ok d => ⟨some d, 1, 0⟩
    | .error _ =>
      if n = 0 then ⟨none, 1, 0⟩
      else
        let r := quoteRetryFrom env (i + 1) n
        ⟨r.outcome, r.calls + 1, r.sleepMs + 1000⟩

/-- The whole quote stage of src/unnamed/part_001: retry from attempt 0
with the full budget of MAX_RETRIES attempts. -/
def quoteStage (env : Nat → P1Resp) : QuoteStageResult :=
  quoteRetryFrom env 0 MAX_RETRIES

/-- A poll response that the loop treats as pending or as a caught
transport-level failure: a fetch throw, a non-2xx response, or a body
whose result field is null. -/
def pendingOrTransport : PollResp → Bool
  | .transportErr => true
  | .httpErr _ => true
  | .body none => true
  | .body (some _) => false

/-- A poll response carrying an indexed result whose metadata reports a
truthy execution error. -/
def isErrResult : PollResp → Bool
  | .body (some r) =>
    match r.meta with
    | some m => m.err.truthy
    | none => false
  | _ => false

lemma pendingOrTransport_pollOnce {r : PollResp}
    (h : pendingOrTransport r = true) : pollOnce r ≠ .confirmed := by
  rcases r with _ | t | res
  · simp [pollOnce]
  · simp [pollOnce]
  · rcases res with _ | rr
    · simp [pollOnce]
    · simp [pendingOrTransport] at h

lemma isErrResult_pollOnce {r : PollResp}
    (h : isErrResult r = true) : pollOnce r = .fallthrough := by
  rcases r with _ | t | res
  · simp [isErrResult] at h
  · simp [isErrResult] at h
  · rcases res with _ | rr
    · simp [isErrResult] at h
    · rcases hm : rr.meta with _ | m
      · simp [isErrResult, hm] at h
      · simp [isErrResult, hm] at h
        simp [pollOnce, hm, h]

lemma verifyFrom_notConfirmed (p : Nat → PollResp) :
    ∀ (n i : Nat), (∀ k, k < n → pollOnce (p (i + k)) ≠ .confirmed) →
    verifyFrom p i n = ⟨.timeout, n, n * POLL_INTERVAL_MS⟩ := by
  intro n
  induction n with
  | zero => intro i _; rfl
  | succ m ih =>
    intro i h
    have h0 : pollOnce (p i) ≠ .confirmed := by
      have := h 0 (Nat.succ_pos m)
      simpa using this
    have hr : verifyFrom p (i + 1) m = ⟨.timeout, m, m * POLL_INTERVAL_MS⟩ := by
      apply ih
      intro k hk
      have heq : i + 1 + k = i + (k + 1) := by omega
      rw [heq]
      exact h (k + 1) (by omega)
    unfold verifyFrom
    rcases hc : pollOnce (p i) with _ | _ | _
    · exact absurd hc h0
    · simp [hr, Nat.succ_mul]
    · simp [hr, Nat.succ_mul]

lemma verifyFrom_firstConfirmed (p : Nat → PollResp) :
    ∀ (j n i : Nat), j < n → pollOnce (p (i + j)) = .confirmed →
    (∀ k, k < j → pollOnce (p (i + k)) ≠ .confirmed) →
    verifyFrom p i n = ⟨.confirmed, j + 1, j * POLL_INTERVAL_MS⟩ := by
  intro j
  induction j with
  | zero =>
    intro n i hn hc _
    rcases n with _ | m
    · omega
    · unfold verifyFrom
      rw [show i + 0 = i from rfl] at hc
      rw [hc]
      simp
  | succ j ih =>
    intro n i hn hc hprev
    rcases n with _ | m
    · omega
    · have h0 : pollOnce (p i) ≠ .confirmed := by
        have := hprev 0 (Nat.succ_pos j)
        simpa using this
      have hc2 : pollOnce (p (i + 1 + j)) = .confirmed := by
        have heq : i + 1 + j = i + (j + 1) := by omega
        rw [heq]; exact hc
      have hprev2 : ∀ k, k < j → pollOnce (p (i + 1 + k)) ≠ .confirmed := by
        intro k hk
        have heq : i + 1 + k = i + (k + 1) := by omega
        rw [heq]
        exact hprev (k + 1) (by omega)
      have hr : verifyFrom p (i + 1) m = ⟨.confirmed, j + 1, j * POLL_INTERVAL_MS⟩ :=
        ih m (i + 1) (by omega) hc2 hprev2
      unfold verifyFrom
      rcases hcp : pollOnce (p i) with _ | _ | _
      · exact absurd hcp h0
      · simp [hr, Nat.succ_mul]
      · simp [hr, Nat.succ_mul]

lemma verifyFrom_bounds (p : Nat → PollResp) :
    ∀ (n i : Nat), (verifyFrom p i n).polls ≤ n ∧
      (verifyFrom p i n).sleepMs ≤ n * POLL_INTERVAL_MS := by
  intro n
  induction n with
  | zero => intro i; exact ⟨Nat.le_refl 0, Nat.le_refl 0⟩
  | succ m ih =>
    intro i
    unfold verifyFrom
    rcases hcp : pollOnce (p i) with _ | _ | _
    · constructor
      · simp
      · simp
    · have := ih (i + 1)
      constructor
      · simp; omega
      · simp [Nat.succ_mul]; omega
    · have := ih (i + 1)
      constructor
      · simp; omega
      · simp [Nat.succ_mul]; omega

lemma verifyFrom_status (p : Nat → PollResp) :
    ∀ (n i : Nat), (verifyFrom p i n).status = .confirmed ∨
      (verifyFrom p i n).status = .timeout := by
  intro n
  induction n with
  | zero => intro i; exact Or.inr rfl
  | succ m ih =>
    intro i
    unfold verifyFrom
    rcases hcp : pollOnce (p i) with _ | _ | _
    · exact Or.inl rfl
    · simpa using ih (i + 1)
    · simpa using ih (i + 1)

lemma executeSwap_ok_of (env : Env) (h : stagesOk env = true)
    (hv : (verify env.poll).status = .confirmed) :
    ∃ t, executeSwap env =
      (.ok t, [Req.quote, Req.build, Req.execute] ++
        List.replicate (verify env.poll).polls Req.confirm) := by
  rcases hfq : fetchQuote env.quoteFetch with e | q
  · simp [stagesOk, hfq] at h
  · rcases hsq : stringifiedQuote q with _ | sq
    · simp [stagesOk, hfq, hsq] at h
    · rcases hb : buildStage env.buildResp with e | bj
      · simp [stagesOk, hfq, hb] at h
      · rcases he : execStage env.execResp with e | ej
        · simp [stagesOk, hfq, he] at h
        · refine ⟨ej.txid, ?_⟩
          simp only [executeSwap, hfq, hsq, hb, he]
          rw [hv]

/-- Claim C2: a confirmation poll whose result carries metadata with a
falsy execution error makes the loop return the signature at once: the
poll count is exactly the index of that poll plus one, no further
confirm requests occur, and when every earlier stage accepted its
response the pipeline returns the transaction id. -/
theorem c2_confirmed_stops_polling (env : Env) (j : Nat) (m : RpcMeta)
    (hj : j < MAX_RETRIES) (hm : m.err.truthy = false)
    (hres : env.poll j = .body (some ⟨some m⟩))
    (hprev : ∀ k, k < j → pollOnce (env.poll k) ≠ .confirmed) :
    verify env.poll = ⟨.confirmed, j + 1, j * POLL_INTERVAL_MS⟩ ∧
    (stagesOk env = true →
      ∃ t, executeSwap env =
        (.ok t, [Req.quote, Req.build, Req.execute] ++
          List.replicate (j + 1) Req.confirm)) := by
  have hpj : pollOnce (env.poll j) = .confirmed := by
    rw [hres]; simp [pollOnce, hm]
  have hv2 : verify env.poll = ⟨.confirmed, j + 1, j * POLL_INTERVAL_MS⟩ := by
    apply verifyFrom_firstConfirmed env.poll j MAX_RETRIES 0 hj
    · rw [Nat.zero_add]; exact hpj
    · intro k hk; rw [Nat.zero_add]; exact hprev k hk
  refine ⟨hv2, fun hs => ?_⟩
  obtain ⟨t, ht⟩ := executeSwap_ok_of env hs (by rw [hv2])
  rw [hv2] at ht
  exact ⟨t, by simpa using ht⟩

/-- A fully successful mocked run: good quote, good build blob, execute
returning the id abcd, and a first poll that confirms. -/
def goodQuote : Quote :=
  ⟨.vStr "5000000000", .vStr "123456", .vStr "123000", .vStr "ExactIn",
   .vInt 250, .vNull, .vDec 15 4,
   [⟨⟨.vStr "5000000000", .vStr "123456", .vStr "25", [("ammKey", .vStr "pool1")]⟩,
     .vInt 100, []⟩],
   .vInt 123, .vDec 4242 3, .vStr "750", [("inputMint", .vStr "So1")]⟩

/-- The environment of the mocked end-to-end run of the spec: every
stage responds well and the first confirmation poll carries a result
with a falsy execution error. -/
def goodEnv : Env :=
  ⟨some (.val goodQuote),
   some ⟨true, "", .val ⟨.vStr "BASE64BLOB"⟩⟩,
   some ⟨true, "", .val ⟨.vStr "abcd"⟩⟩,
   fun _ => .body (some ⟨some ⟨.vNull⟩⟩)⟩

/-- Claim C2 witness: on the mocked environment the first poll confirms,
exactly one confirm request is issued, and the pipeline succeeds. -/
theorem c2_witness :
    verify goodEnv.poll = ⟨.confirmed, 1, 0⟩ ∧
    (stagesOk goodEnv = true →
      ∃ t, executeSwap goodEnv =
        (.ok t, [Req.quote, Req.build, Req.execute] ++
          List.replicate 1 Req.confirm)) :=
  c2_confirmed_stops_polling goodEnv 0 ⟨.vNull⟩ (by decide) rfl rfl
    (fun k hk => absurd hk (Nat.not_lt_zero k))

/-- Claim C4: for any mix of pending results and transport-level
failures the confirmation loop polls exactly MAX_RETRIES times, sleeping
one interval after each poll, and ends in timeout; and for every poll
sequence whatsoever the loop issues at most MAX_RETRIES polls and sleeps
at most MAX_RETRIES intervals, so a transport error never aborts the
loop, it only spends one unit of the attempt budget. -/
theorem c4_poll_budget (p : Nat → PollResp)
    (h : ∀ i, i < MAX_RETRIES → pendingOrTransport (p i) = true) :
    verify p = ⟨.timeout, MAX_RETRIES, MAX_RETRIES * POLL_INTERVAL_MS⟩ ∧
    ∀ q : Nat → PollResp, (verify q).polls ≤ MAX_RETRIES ∧
      (verify q).sleepMs ≤ MAX_RETRIES * POLL_INTERVAL_MS := by
  constructor
  · apply verifyFrom_notConfirmed
    intro k hk
    rw [Nat.zero_add]
    exact pendingOrTransport_pollOnce (h k hk)
  · intro q
    exact verifyFrom_bounds q MAX_RETRIES 0

/-- A poll sequence that always answers with a transport failure. -/
def transportOnlyPoll : Nat → PollResp := fun _ => .transportErr

/-- Claim C4 witness: a run of pure transport failures polls three
times, sleeps three seconds in total, and ends in timeout. -/
theorem c4_witness :
    verify transportOnlyPoll =
      ⟨.timeout, MAX_RETRIES, MAX_RETRIES * POLL_INTERVAL_MS⟩ :=
  (c4_poll_budget transportOnlyPoll (fun _ _ => rfl)).1

/-- A poll response whose result carries metadata with a truthy
execution error. -/
def errMetaResult : PollResp := .body (some ⟨some ⟨.vStr "InstructionError"⟩⟩)

/-- A poll sequence that always answers with an execution-error result. -/
def errPoll : Nat → PollResp := fun _ => errMetaResult

/-- Claim C3 counterexample: the very first poll carries a result whose
metadata reports an execution error, yet the loop does not stop there
and does not report a distinct on-chain failure: it keeps polling, makes
all three attempts, and ends in timeout. -/
theorem c3_counterexample :
    isErrResult (errPoll 0) = true ∧
    verify errPoll = ⟨.timeout, MAX_RETRIES, MAX_RETRIES * POLL_INTERVAL_MS⟩ :=
  ⟨rfl, by decide⟩

/-- Claim C3 amended: a poll result with a truthy execution error never
confirms, but the loop has no on-chain-failure exit at all: the attempt
merely spends budget and polling continues, and when every poll carries
such a result the loop makes all MAX_RETRIES attempts and ends in
timeout (the generic verification failure). -/
theorem c3_amended_err_result_keeps_polling (p : Nat → PollResp)
    (h : ∀ i, i < MAX_RETRIES → isErrResult (p i) = true) :
    (∀ q : Nat → PollResp, (verify q).status ≠ .onChainFailure) ∧
    pollOnce (p 0) ≠ .confirmed ∧
    verify p = ⟨.timeout, MAX_RETRIES, MAX_RETRIES * POLL_INTERVAL_MS⟩ := by
  refine ⟨?_, ?_, ?_⟩
  · intro q
    rcases verifyFrom_status q MAX_RETRIES 0 with hs | hs
    · show (verifyFrom q 0 MAX_RETRIES).status ≠ _
      rw [hs]; simp
    · show (verifyFrom q 0 MAX_RETRIES).status ≠ _
      rw [hs]; simp
  · rw [isErrResult_pollOnce (h 0 (by decide))]
    simp
  · apply verifyFrom_notConfirmed
    intro k hk
    rw [Nat.zero_add, isErrResult_pollOnce (h k hk)]
    simp

/-- Claim C3 witness: applying the amended statement to the constant
error-result environment. -/
theorem c3_witness :
    (verify errPoll).status ≠ .onChainFailure ∧
    verify errPoll = ⟨.timeout, MAX_RETRIES, MAX_RETRIES * POLL_INTERVAL_MS⟩ :=
  ⟨(c3_amended_err_result_keeps_polling errPoll (fun _ _ => rfl)).1 errPoll,
   (c3_amended_err_result_keeps_polling errPoll (fun _ _ => rfl)).2.2⟩

/-- A poll response whose body carries an indexed result with a null
meta field: reading meta.err throws. -/
def nullMetaResp : PollResp := .body (some ⟨none⟩)

/-- A poll sequence that always answers with a null-meta result. -/
def nullMetaPoll : Nat → PollResp := fun _ => nullMetaResp

/-- Claim C10: a result with a null meta field is handled by the very
same caught-exception path as a transport error, never confirms, spends
one attempt of the budget, and a run of such results ends in timeout
after the full budget. -/
theorem c10_null_meta_caught (p : Nat → PollResp)
    (h : ∀ i, i < MAX_RETRIES → p i = nullMetaResp) :
    pollOnce nullMetaResp = .caught ∧
    pollOnce PollResp.transportErr = .caught ∧
    verify p = ⟨.timeout, MAX_RETRIES, MAX_RETRIES * POLL_INTERVAL_MS⟩ := by
  refine ⟨rfl, rfl, ?_⟩
  apply verifyFrom_notConfirmed
  intro k hk
  rw [Nat.zero_add, h k hk]
  simp [pollOnce, nullMetaResp]

/-- Claim C10 witness: the constant null-meta environment. -/
theorem c10_witness :
    pollOnce nullMetaResp = .caught ∧
    pollOnce PollResp.transportErr = .caught ∧
    verify nullMetaPoll = ⟨.timeout, MAX_RETRIES, MAX_RETRIES * POLL_INTERVAL_MS⟩ :=
  c10_null_meta_caught nullMetaPoll (fun _ _ => rfl)

/-- A parsed build body that lacks a usable transaction blob: the body
is null, or its swapTransaction field is falsy. -/
def lacksTx : JsonOf BuildJson → Bool
  | .throws => false
  | .null => true
  | .val bj => !bj.swapTransaction.truthy

/-- A parsed execute body that lacks a usable transaction id. -/
def lacksTxid : JsonOf ExecJson → Bool
  | .throws => true
  | .null => true
  | .val ej => !ej.txid.truthy

lemma count_exec_replicate (n : Nat) :
    (List.replicate n Req.confirm).count Req.execute = 0 := by
  induction n with
  | zero => rfl
  | succ m ih => rw [List.replicate_succ, List.count_cons]; simp [ih]

lemma count_exec_trace (n : Nat) :
    (([Req.quote, Req.build, Req.execute] ++
      List.replicate n Req.confirm).count Req.execute) = 1 := by
  rw [List.count_append, count_exec_replicate]
  decide

/-- Claim C1: when the build response is non-2xx or its parsed body
lacks a truthy swapTransaction, no request is ever sent to the execute
endpoint, and whenever the build stage was reached at all the run ends
in BuildError, carrying the full response body exactly on non-2xx. -/
theorem c1_bad_build_stops (env : Env) (br : BuildResp)
    (henv : env.buildResp = some br)
    (hbad : br.ok = false ∨ lacksTx br.json = true) :
    (executeSwap env).2.count Req.execute = 0 ∧
    (Req.build ∈ (executeSwap env).2 →
      (executeSwap env).1 =
        .err (.buildError (if br.ok then none else some br.text))) := by
  have hb : buildStage env.buildResp =
      .error (.buildError (if br.ok then none else some br.text)) := by
    rw [henv]
    rcases hok : br.ok with _ | _
    · simp [buildStage, hok]
    · rcases hbad with hbad | hbad
      · rw [hok] at hbad; exact absurd hbad (by simp)
      · rcases hj : br.json with _ | _ | bj
        · rw [hj] at hbad; exact absurd hbad (by simp [lacksTx])
        · simp [buildStage, hok, hj]
        · rw [hj] at hbad
          have hfalse : bj.swapTransaction.truthy = false := by
            simpa [lacksTx] using hbad
          simp [buildStage, hok, hj, hfalse]
  rcases hfq : fetchQuote env.quoteFetch with e | q
  · simp only [executeSwap, hfq]
    exact ⟨by decide, fun hmem => absurd hmem (by decide)⟩
  · rcases hsq : stringifiedQuote q with _ | sq
    · simp only [executeSwap, hfq, hsq]
      exact ⟨by decide, fun hmem => absurd hmem (by decide)⟩
    · simp only [executeSwap, hfq, hsq, hb]
      exact ⟨by decide, fun _ => trivial⟩

/-- An environment whose build endpoint answers 500 with a body. -/
def badBuildEnv : Env :=
  ⟨some (.val goodQuote),
   some ⟨false, "Internal Server Error", .throws⟩,
   some ⟨true, "", .val ⟨.vStr "abcd"⟩⟩,
   fun _ => .body none⟩

/-- Claim C1 witness: a 500 build response yields BuildError carrying
the body, and no execute request is issued. -/
theorem c1_witness :
    (executeSwap badBuildEnv).2.count Req.execute = 0 ∧
    (executeSwap badBuildEnv).1 =
      .err (.buildError (some "Internal Server Error")) :=
  ⟨(c1_bad_build_stops badBuildEnv ⟨false, "Internal Server Error", .throws⟩
      rfl (Or.inl rfl)).1,
   (c1_bad_build_stops badBuildEnv ⟨false, "Internal Server Error", .throws⟩
      rfl (Or.inl rfl)).2 (by decide)⟩

/-- Claim C9: the pipeline issues at most one execute request in any
run, and when the execute stage is reached with a parseable response,
the run ends in SubmitError exactly when that response is non-2xx or
lacks a truthy transaction id. -/
theorem c9_submit_terminal (env : Env)
    (hp : ∀ er, env.execResp = some er → er.json ≠ JsonOf.throws) :
    (executeSwap env).2.count Req.execute ≤ 1 ∧
    (∀ er, env.execResp = some er → Req.execute ∈ (executeSwap env).2 →
      ((∃ b, (executeSwap env).1 = .err (.submitError b)) ↔
        (er.ok = false ∨ lacksTxid er.json = true))) := by
  rcases hfq : fetchQuote env.quoteFetch with e | q
  · simp only [executeSwap, hfq]
    exact ⟨by decide, fun er her hmem => absurd hmem (by decide)⟩
  · rcases hsq : stringifiedQuote q with _ | sq
    · simp only [executeSwap, hfq, hsq]
      exact ⟨by decide, fun er her hmem => absurd hmem (by decide)⟩
    · rcases hb : buildStage env.buildResp with e | bj
      · simp only [executeSwap, hfq, hsq, hb]
        exact ⟨by decide, fun er her hmem => absurd hmem (by decide)⟩
      · rcases hex : env.execResp with _ | er0
        · have he : execStage env.execResp = .error .transportError := by
            rw [hex]; rfl
          simp only [executeSwap, hfq, hsq, hb, he]
          refine ⟨by decide, ?_⟩
          intro er her hmem
          exact absurd her (by simp)
        · rcases hok : er0.ok with _ | _
          · have he : execStage env.execResp =
                .error (.submitError (some er0.text)) := by
              rw [hex]; simp [execStage, hok]
            simp only [executeSwap, hfq, hsq, hb, he]
            refine ⟨by decide, ?_⟩
            intro er her hmem
            injection her with h2
            subst h2
            constructor
            · intro _; exact Or.inl hok
            · intro _; exact ⟨some er0.text, rfl⟩
          · rcases hj : er0.json with _ | _ | ej
            · exact absurd hj (hp er0 hex)
            · have he : execStage env.execResp = .error (.submitError none) := by
                rw [hex]; simp [execStage, hok, hj]
              simp only [executeSwap, hfq, hsq, hb, he]
              refine ⟨by decide, ?_⟩
              intro er her hmem
              injection her with h2
              subst h2
              constructor
              · intro _
                refine Or.inr ?_
                rw [hj]
                decide
              · intro _; exact ⟨none, rfl⟩
            · rcases ht : ej.txid.truthy with _ | _
              · have he : execStage env.execResp = .error (.submitError none) := by
                  rw [hex]; simp [execStage, hok, hj, ht]
                simp only [executeSwap, hfq, hsq, hb, he]
                refine ⟨by decide, ?_⟩
                intro er her hmem
                injection her with h2
                subst h2
                constructor
                · intro _
                  refine Or.inr ?_
                  rw [hj]
                  simp [lacksTxid, ht]
                · intro _; exact ⟨none, rfl⟩
              · have he : execStage env.execResp = .ok ej := by
                  rw [hex]; simp [execStage, hok, hj, ht]
                simp only [executeSwap, hfq, hsq, hb, he]
                constructor
                · rcases hv : (verify env.poll).status with _ | _ | _ <;>
                    simp only [hv] <;> simp [count_exec_replicate]
                · intro er her hmem
                  injection her with h2
                  subst h2
                  constructor
                  · rintro ⟨b, hbad⟩
                    exfalso
                    rcases hv : (verify env.poll).status with _ | _ | _ <;>
                      simp only [hv] at hbad <;> simp at hbad
                  · intro hrhs
                    exfalso
                    rcases hrhs with hrhs | hrhs
                    · rw [hok] at hrhs; exact absurd hrhs (by simp)
                    · rw [hj] at hrhs
                      simp [lacksTxid, ht] at hrhs

/-- An environment whose execute endpoint answers 2xx but with a null
txid in the body. -/
def badExecEnv : Env :=
  ⟨some (.val goodQuote),
   some ⟨true, "", .val ⟨.vStr "BASE64BLOB"⟩⟩,
   some ⟨true, "", .val ⟨.vNull⟩⟩,
   fun _ => .body none⟩

/-- Claim C9 witness: with a txid-less 2xx execute response the run
issues at most one execute request and ends in SubmitError. -/
theorem c9_witness :
    (executeSwap badExecEnv).2.count Req.execute ≤ 1 ∧
    ((∃ b, (executeSwap badExecEnv).1 = .err (.submitError b)) ↔
      ((⟨true, "", .val ⟨.vNull⟩⟩ : ExecResp).ok = false ∨
        lacksTxid (⟨true, "", .val ⟨.vNull⟩⟩ : ExecResp).json = true)) :=
  ⟨(c9_submit_terminal badExecEnv
      (fun er h => by injection h with h2; rw [← h2]; decide)).1,
   (c9_submit_terminal badExecEnv
      (fun er h => by injection h with h2; rw [← h2]; decide)).2
     ⟨true, "", .val ⟨.vNull⟩⟩ rfl (by decide)⟩

/-- A quote whose outAmount is the string 0 (truthy in JavaScript, but
numerically zero) and whose routePlan is empty. -/
def emptyRouteQuote : Quote :=
  ⟨.vStr "5000000000", .vStr "0", .vStr "0", .vStr "ExactIn",
   .vInt 250, .vNull, .vStr "0", [], .vInt 1, .vInt 1, .vStr "0", []⟩

/-- Claim C5 counterexample: the quote stage accepts a response whose
routePlan is empty and whose outAmount is the string 0, which is not a
positive amount; the code checks only JavaScript truthiness of
outAmount and never inspects routePlan. -/
theorem c5_counterexample :
    fetchQuote (some (.val emptyRouteQuote)) = .ok emptyRouteQuote ∧
    emptyRouteQuote.routePlan = [] ∧
    emptyRouteQuote.outAmount = .vStr "0" :=
  ⟨rfl, rfl, rfl⟩

/-- Claim C5 amended: the quote stage returns a quote exactly when the
response parses to a non-null value whose outAmount field is truthy;
it rejects everything else with QuoteError (or propagates the transport
failure), and it validates neither positivity of outAmount nor
non-emptiness of routePlan. -/
theorem c5_amended_quote_guard (r : Option (JsonOf Quote)) (q : Quote) :
    fetchQuote r = .ok q ↔
      (r = some (.val q) ∧ q.outAmount.truthy = true) := by
  constructor
  · intro h
    rcases r with _ | j
    · simp [fetchQuote] at h
    · rcases j with _ | _ | q0
      · simp [fetchQuote] at h
      · simp [fetchQuote] at h
      · by_cases ht : q0.outAmount.truthy = true
        · rw [fetchQuote, if_pos ht] at h
          injection h with h2
          subst h2
          exact ⟨rfl, ht⟩
        · rw [fetchQuote, if_neg ht] at h
          exact absurd h (by simp)
  · rintro ⟨rfl, ht⟩
    simp [fetchQuote, ht]

/-- Whether a value is already a string. -/
def jsIsStr : JsVal → Bool
  | .vStr _ => true
  | _ => false

lemma jsIsStr_iff (v : JsVal) : jsIsStr v = true ↔ ∃ s, v = .vStr s := by
  cases v <;> simp [jsIsStr]

/-- All three coerced amounts of a route-plan step are already strings. -/
def stepAllStr (p : RoutePlanStep) : Bool :=
  jsIsStr p.swapInfo.inAmount && jsIsStr p.swapInfo.outAmount &&
    jsIsStr p.swapInfo.feeAmount

/-- Every field the normalizer coerces is already a string. -/
def quoteAllStr (q : Quote) : Bool :=
  jsIsStr q.inAmount && jsIsStr q.outAmount && jsIsStr q.otherAmountThreshold &&
    jsIsStr q.priceImpactPct && jsIsStr q.swapUsdValue &&
    q.routePlan.all stepAllStr

lemma stringifyStep_noop (p : RoutePlanStep) (h : stepAllStr p = true) :
    stringifyStep p = some p := by
  obtain ⟨⟨ia, oa, fa, sr⟩, pct, r⟩ := p
  simp only [stepAllStr, Bool.and_eq_true] at h
  obtain ⟨⟨h1, h2⟩, h3⟩ := h
  obtain ⟨s1, rfl⟩ := (jsIsStr_iff _).mp h1
  obtain ⟨s2, rfl⟩ := (jsIsStr_iff _).mp h2
  obtain ⟨s3, rfl⟩ := (jsIsStr_iff _).mp h3
  simp [stringifyStep, jsToString]

lemma stringifySteps_noop (l : List RoutePlanStep) (h : l.all stepAllStr = true) :
    stringifySteps l = some l := by
  induction l with
  | nil => rfl
  | cons p ps ih =>
    rw [List.all_cons, Bool.and_eq_true] at h
    simp [stringifySteps, stringifyStep_noop p h.1, ih h.2]

lemma stringifiedQuote_noop (q : Quote) (h : quoteAllStr q = true) :
    stringifiedQuote q = some q := by
  obtain ⟨ia, oa, oat, sm, sb, pf, pip, rp, cs, tt, suv, r⟩ := q
  simp only [quoteAllStr, Bool.and_eq_true] at h
  obtain ⟨⟨⟨⟨⟨h1, h2⟩, h3⟩, h4⟩, h5⟩, h6⟩ := h
  obtain ⟨s1, rfl⟩ := (jsIsStr_iff _).mp h1
  obtain ⟨s2, rfl⟩ := (jsIsStr_iff _).mp h2
  obtain ⟨s3, rfl⟩ := (jsIsStr_iff _).mp h3
  obtain ⟨s4, rfl⟩ := (jsIsStr_iff _).mp h4
  obtain ⟨s5, rfl⟩ := (jsIsStr_iff _).mp h5
  simp [stringifiedQuote, jsToString, stringifySteps_noop _ h6]

lemma stringifyStep_allStr {p p2 : RoutePlanStep}
    (h : stringifyStep p = some p2) : stepAllStr p2 = true := by
  rcases hia : jsToString p.swapInfo.inAmount with _ | ia
  · simp [stringifyStep, hia] at h
  · rcases hoa : jsToString p.swapInfo.outAmount with _ | oa
    · simp [stringifyStep, hia, hoa] at h
    · rcases hfa : jsToString p.swapInfo.feeAmount with _ | fa
      · simp [stringifyStep, hia, hoa, hfa] at h
      · simp [stringifyStep, hia, hoa, hfa] at h
        subst h
        simp [stepAllStr, jsIsStr]

lemma stringifySteps_allStr : ∀ {l l2 : List RoutePlanStep},
    stringifySteps l = some l2 → l2.all stepAllStr = true := by
  intro l
  induction l with
  | nil =>
    intro l2 h
    simp [stringifySteps] at h
    subst h
    rfl
  | cons p ps ih =>
    intro l2 h
    rcases hp : stringifyStep p with _ | p2
    · simp [stringifySteps, hp] at h
    · rcases hps : stringifySteps ps with _ | ps2
      · simp [stringifySteps, hp, hps] at h
      · simp [stringifySteps, hp, hps] at h
        subst h
        rw [List.all_cons, Bool.and_eq_true]
        exact ⟨stringifyStep_allStr hp, ih hps⟩

lemma stringifiedQuote_allStr {q q2 : Quote}
    (h : stringifiedQuote q = some q2) : quoteAllStr q2 = true := by
  rcases hia : jsToString q.inAmount with _ | ia
  · simp [stringifiedQuote, hia] at h
  · rcases hoa : jsToString q.outAmount with _ | oa
    · simp [stringifiedQuote, hia, hoa] at h
    · rcases hoat : jsToString q.otherAmountThreshold with _ | oat
      · simp [stringifiedQuote, hia, hoa, hoat] at h
      · rcases hpip : jsToString q.priceImpactPct with _ | pip
        · simp [stringifiedQuote, hia, hoa, hoat, hpip] at h
        · rcases hrp : stringifySteps q.routePlan with _ | rp2
          · simp [stringifiedQuote, hia, hoa, hoat, hpip, hrp] at h
          · rcases hsuv : jsToString q.swapUsdValue with _ | suv
            · simp [stringifiedQuote, hia, hoa, hoat, hpip, hrp, hsuv] at h
            · simp [stringifiedQuote, hia, hoa, hoat, hpip, hrp, hsuv] at h
              subst h
              simp [quoteAllStr, jsIsStr, stringifySteps_allStr hrp]

/-- Claim C7: normalization is idempotent.  Whenever normalization of a
quote succeeds, normalizing the result again is the identity, and on a
quote whose coerced fields are already strings normalization is a
byte-identical no-op. -/
theorem c7_normalize_idempotent (q q2 : Quote)
    (h : stringifiedQuote q = some q2) :
    stringifiedQuote q2 = some q2 ∧
    (quoteAllStr q = true → stringifiedQuote q = some q) :=
  ⟨stringifiedQuote_noop q2 (stringifiedQuote_allStr h),
   fun ha => stringifiedQuote_noop q ha⟩

/-- A quote mixing integer, decimal and string payloads in its coerced
fields. -/
def mixedQuote : Quote :=
  ⟨.vInt 5000000000, .vStr "123456", .vDec 123 1, .vStr "ExactIn",
   .vInt 250, .vNull, .vDec 15 4,
   [⟨⟨.vInt 100, .vStr "7", .vDec 5 1, [("ammKey", .vStr "p1")]⟩, .vInt 100, []⟩],
   .vInt 9, .vDec 4242 3, .vInt 7, [("label", .vStr "x")]⟩

/-- The normal form of mixedQuote. -/
def mixedQuoteN : Quote :=
  ⟨.vStr "5000000000", .vStr "123456", .vStr "12.3", .vStr "ExactIn",
   .vInt 250, .vNull, .vStr "0.0015",
   [⟨⟨.vStr "100", .vStr "7", .vStr "0.5", [("ammKey", .vStr "p1")]⟩, .vInt 100, []⟩],
   .vInt 9, .vDec 4242 3, .vStr "7", [("label", .vStr "x")]⟩

/-- Claim C7 witness: a concrete mixed-type quote normalizes, and
normalizing its normal form again is the identity. -/
theorem c7_witness :
    stringifiedQuote mixedQuoteN = some mixedQuoteN ∧
    (quoteAllStr mixedQuote = true → stringifiedQuote mixedQuote = some mixedQuote) :=
  c7_normalize_idempotent mixedQuote mixedQuoteN (by decide)

/-- A quote in which every field the spec lists as coerced is already a
canonical string, while priceImpactPct is an integer. -/
def pipQuote : Quote :=
  ⟨.vStr "1", .vStr "2", .vStr "3", .vStr "ExactIn", .vInt 250, .vNull,
   .vInt 3, [], .vInt 9, .vNull, .vStr "4", []⟩

/-- The image of pipQuote under the normalizer: priceImpactPct became a
string. -/
def pipQuoteN : Quote :=
  ⟨.vStr "1", .vStr "2", .vStr "3", .vStr "ExactIn", .vInt 250, .vNull,
   .vStr "3", [], .vInt 9, .vNull, .vStr "4", []⟩

/-- Claim C8 counterexample: every amount field named by the claim is
already a string in pipQuote, so by the claim normalization would leave
the quote unchanged; yet the code also coerces priceImpactPct, a field
the claim counts among those left unchanged. -/
theorem c8_counterexample :
    stringifiedQuote pipQuote = some pipQuoteN ∧
    pipQuoteN.priceImpactPct ≠ pipQuote.priceImpactPct ∧
    jsIsStr pipQuote.inAmount = true ∧ jsIsStr pipQuote.outAmount = true ∧
    jsIsStr pipQuote.otherAmountThreshold = true ∧
    jsIsStr pipQuote.swapUsdValue = true ∧ pipQuote.routePlan = [] :=
  ⟨by decide, by decide, rfl, rfl, rfl, rfl, rfl⟩

/-- The relation between a route-plan step and its normal form: the
three swapInfo amounts are the string coercions of the originals, and
percent together with every other property is unchanged. -/
def stepNorm (p p2 : RoutePlanStep) : Prop :=
  (jsToString p.swapInfo.inAmount).map JsVal.vStr = some p2.swapInfo.inAmount ∧
  (jsToString p.swapInfo.outAmount).map JsVal.vStr = some p2.swapInfo.outAmount ∧
  (jsToString p.swapInfo.feeAmount).map JsVal.vStr = some p2.swapInfo.feeAmount ∧
  p2.swapInfo.rest = p.swapInfo.rest ∧ p2.percent = p.percent ∧ p2.rest = p.rest

lemma stringifyStep_norm {p p2 : RoutePlanStep}
    (h : stringifyStep p = some p2) : stepNorm p p2 := by
  rcases hia : jsToString p.swapInfo.inAmount with _ | ia
  · simp [stringifyStep, hia] at h
  · rcases hoa : jsToString p.swapInfo.outAmount with _ | oa
    · simp [stringifyStep, hia, hoa] at h
    · rcases hfa : jsToString p.swapInfo.feeAmount with _ | fa
      · simp [stringifyStep, hia, hoa, hfa] at h
      · simp [stringifyStep, hia, hoa, hfa] at h
        subst h
        exact ⟨by simp [hia], by simp [hoa], by simp [hfa], rfl, rfl, rfl⟩

lemma stringifySteps_norm : ∀ {l l2 : List RoutePlanStep},
    stringifySteps l = some l2 → List.Forall₂ stepNorm l l2 := by
  intro l
  induction l with
  | nil =>
    intro l2 h
    simp [stringifySteps] at h
    subst h
    exact List.Forall₂.nil
  | cons p ps ih =>
    intro l2 h
    rcases hp : stringifyStep p with _ | p2
    · simp [stringifySteps, hp] at h
    · rcases hps : stringifySteps ps with _ | ps2
      · simp [stringifySteps, hp, hps] at h
      · simp [stringifySteps, hp, hps] at h
        subst h
        exact List.Forall₂.cons (stringifyStep_norm hp) (ih hps)

/-- Claim C8 amended: the normalizer coerces exactly inAmount,
outAmount, otherAmountThreshold, priceImpactPct, swapUsdValue and the
three swapInfo amounts of every routePlan step to their string
renderings, and leaves swapMode, slippageBps, platformFee, contextSlot,
timeTaken, percent and every further spread-carried property
unchanged. -/
theorem c8_amended_frame (q q2 : Quote) (h : stringifiedQuote q = some q2) :
    (jsToString q.inAmount).map JsVal.vStr = some q2.inAmount ∧
    (jsToString q.outAmount).map JsVal.vStr = some q2.outAmount ∧
    (jsToString q.otherAmountThreshold).map JsVal.vStr = some q2.otherAmountThreshold ∧
    (jsToString q.priceImpactPct).map JsVal.vStr = some q2.priceImpactPct ∧
    (jsToString q.swapUsdValue).map JsVal.vStr = some q2.swapUsdValue ∧
    q2.swapMode = q.swapMode ∧ q2.slippageBps = q.slippageBps ∧
    q2.platformFee = q.platformFee ∧ q2.contextSlot = q.contextSlot ∧
    q2.timeTaken = q.timeTaken ∧ q2.rest = q.rest ∧
    List.Forall₂ stepNorm q.routePlan q2.routePlan := by
  rcases hia : jsToString q.inAmount with _ | ia
  · simp [stringifiedQuote, hia] at h
  · rcases hoa : jsToString q.outAmount with _ | oa
    · simp [stringifiedQuote, hia, hoa] at h
    · rcases hoat : jsToString q.otherAmountThreshold with _ | oat
      · simp [stringifiedQuote, hia, hoa, hoat] at h
      · rcases hpip : jsToString q.priceImpactPct with _ | pip
        · simp [stringifiedQuote, hia, hoa, hoat, hpip] at h
        · rcases hrp : stringifySteps q.routePlan with _ | rp2
          · simp [stringifiedQuote, hia, hoa, hoat, hpip, hrp] at h
          · rcases hsuv : jsToString q.swapUsdValue with _ | suv
            · simp [stringifiedQuote, hia, hoa, hoat, hpip, hrp, hsuv] at h
            · simp [stringifiedQuote, hia, hoa, hoat, hpip, hrp, hsuv] at h
              subst h
              exact ⟨by simp [hia], by simp [hoa], by simp [hoat],
                by simp [hpip], by simp [hsuv], rfl, rfl, rfl, rfl, rfl, rfl,
                stringifySteps_norm hrp⟩

/-- Claim C8 witness: on the concrete mixed-type quote the amended
frame statement instantiates: priceImpactPct is coerced while swapMode
and timeTaken are untouched. -/
theorem c8_witness :
    (jsToString mixedQuote.priceImpactPct).map JsVal.vStr = some mixedQuoteN.priceImpactPct ∧
    mixedQuoteN.swapMode = mixedQuote.swapMode ∧
    mixedQuoteN.timeTaken = mixedQuote.timeTaken := by
  obtain ⟨h1, h2, h3, h4, h5, h6, h7, h8, h9, h10, h11, h12⟩ :=
    c8_amended_frame mixedQuote mixedQuoteN (by decide)
  exact ⟨h4, h6, h10⟩

lemma quoteRetryFrom_ok {env : Nat → P1Resp} {i : Nat} {d : P1QuoteData}
    (n : Nat) (h : getQuote (env i) = .ok d) :
    quoteRetryFrom env i (n + 1) = ⟨some d, 1, 0⟩ := by
  simp [quoteRetryFrom, h]

lemma quoteRetryFrom_err_last {env : Nat → P1Resp} {i : Nat}
    (h : getQuote (env i) = .error ()) :
    quoteRetryFrom env i (0 + 1) = ⟨none, 1, 0⟩ := by
  simp [quoteRetryFrom, h]

lemma quoteRetryFrom_err_step {env : Nat → P1Resp} {i : Nat}
    (n : Nat) (h : getQuote (env i) = .error ()) (hn : n ≠ 0) :
    quoteRetryFrom env i (n + 1) =
      ⟨(quoteRetryFrom env (i + 1) n).outcome,
       (quoteRetryFrom env (i + 1) n).calls + 1,
       (quoteRetryFrom env (i + 1) n).sleepMs + 1000⟩ := by
  simp [quoteRetryFrom, h, hn]

lemma quoteRetryFrom_calls_le (env : Nat → P1Resp) :
    ∀ (n i : Nat), (quoteRetryFrom env i n).calls ≤ n := by
  intro n
  induction n with
  | zero => intro i; exact Nat.le_refl 0
  | succ m ih =>
    intro i
    rcases hg : getQuote (env i) with _ | d
    · by_cases hm : m = 0
      · subst hm
        simp [quoteRetryFrom_err_last hg]
      · rw [quoteRetryFrom_err_step m hg hm]
        exact Nat.succ_le_succ (ih (i + 1))
    · rw [quoteRetryFrom_ok m hg]
      exact Nat.succ_le_succ (Nat.zero_le m)

/-- A parsed quote body whose error field is truthy: getQuote throws it. -/
def aggErrData : P1QuoteData := ⟨.vStr "No route found", []⟩

/-- A parsed quote body with no error field: getQuote returns it. -/
def goodData : P1QuoteData := ⟨.vNull, [("outAmount", .vStr "123456")]⟩

/-- First response carries an aggregator error field, all later ones are
good. -/
def aggErrThenOk : Nat → P1Resp :=
  fun i => if i = 0 then .body aggErrData else .body goodData

/-- Claim C6 counterexample: the first response reports an explicit
aggregator error field, yet the quote stage does not end there: the
loop retries, a second getQuote call happens one second later, and the
stage succeeds.  An aggregator-error response is therefore retried, not
terminal. -/
theorem c6_counterexample :
    aggErrThenOk 0 = .body aggErrData ∧
    aggErrData.error.truthy = true ∧
    quoteStage aggErrThenOk = ⟨some goodData, 2, 1000⟩ :=
  ⟨rfl, rfl, by decide⟩

/-- Claim C6 amended: the quote retry loop of the unnamed variant
treats transport failures and aggregator-error responses identically:
any failed attempt is retried after a fixed one-second delay with no
backoff, up to MAX_RETRIES attempts in total, and the stage fails only
after MAX_RETRIES consecutive failures of either kind. -/
theorem c6_amended_any_failure_retried (env : Nat → P1Resp)
    (h0 : getQuote (env 0) = .error ()) :
    (∀ d, getQuote (env 1) = .ok d → quoteStage env = ⟨some d, 2, 1000⟩) ∧
    (getQuote (env 1) = .error () → getQuote (env 2) = .error () →
      quoteStage env = ⟨none, 3, 2000⟩) ∧
    (quoteStage env).calls ≤ MAX_RETRIES := by
  have h3 : quoteStage env =
      ⟨(quoteRetryFrom env 1 2).outcome,
       (quoteRetryFrom env 1 2).calls + 1,
       (quoteRetryFrom env 1 2).sleepMs + 1000⟩ := by
    show quoteRetryFrom env 0 MAX_RETRIES = _
    rw [show MAX_RETRIES = 2 + 1 from rfl]
    exact quoteRetryFrom_err_step 2 h0 (by omega)
  refine ⟨?_, ?_, ?_⟩
  · intro d h1
    have h2 : quoteRetryFrom env 1 2 = ⟨some d, 1, 0⟩ := by
      rw [show (2 : Nat) = 1 + 1 from rfl]
      exact quoteRetryFrom_ok 1 h1
    rw [h3, h2]
  · intro h1 h2
    have s2 : quoteRetryFrom env 1 2 =
        ⟨(quoteRetryFrom env 2 1).outcome,
         (quoteRetryFrom env 2 1).calls + 1,
         (quoteRetryFrom env 2 1).sleepMs + 1000⟩ := by
      rw [show (2 : Nat) = 1 + 1 from rfl]
      exact quoteRetryFrom_err_step 1 h1 (by omega)
    have s1 : quoteRetryFrom env 2 1 = ⟨none, 1, 0⟩ := by
      rw [show (1 : Nat) = 0 + 1 from rfl]
      exact quoteRetryFrom_err_last h2
    rw [h3, s2, s1]
  · exact quoteRetryFrom_calls_le env MAX_RETRIES 0

/-- First attempt hits a transport failure, all later ones are good. -/
def transportThenOk : Nat → P1Resp :=
  fun i => if i = 0 then .transportErr else .body goodData

/-- Claim C6 witness: after a transport failure on the first attempt
the stage retries once and succeeds with two calls and one second of
sleep, within the attempt budget. -/
theorem c6_witness :
    quoteStage transportThenOk = ⟨some goodData, 2, 1000⟩ ∧
    (quoteStage transportThenOk).calls ≤ MAX_RETRIES :=
  ⟨(c6_amended_any_failure_retried transportThenOk rfl).1 goodData rfl,
   (c6_amended_any_failure_retried transportThenOk rfl).2.2⟩
